import Mathlib

set_option maxRecDepth 100000

/-!
Shallow embedding of `src/privatbank_exchange.py`.

The embedding models:
  * decoded JSON documents (`Json`), with Python `dict` values as
    association lists in insertion order (JSON numbers are carried
    symbolically as rationals; the modelled code never computes with them);
  * Python exceptions relevant to the program (`PyError`);
  * the possible outcomes of the outbound HTTP request made by
    `PrivatBankCurrencyRatesFetcher.fetch_rates` (`RemoteResponse`);
  * the pure parsing logic `_parse_response`, the aggregation
    `CurrencyRatesService.get_rates_for_days` (dates as integer day numbers:
    `datetime` day arithmetic is integer arithmetic on day counts, and the
    `strftime("%d.%m.%Y")` rendering is injective on the relevant range), and
    the per-message behaviour of the websocket handler `exchange_command`.
-/

inductive Json where
  | null : Json
  | bool : Bool → Json
  | num : Rat → Json
  | str : String → Json
  | arr : List Json → Json
  | obj : List (String × Json) → Json

/-- Python exceptions that the modelled code can raise or catch.
`clientError` stands for `aiohttp.ClientError` and all of its subclasses
(transport failures, `ClientResponseError` from `raise_for_status`,
`ContentTypeError` from `response.json()`); `valueError` carries the message
(`json.JSONDecodeError` is a subclass of `ValueError`). -/
inductive PyError where
  | clientError : PyError
  | valueError : String → PyError
  | attributeError : PyError
  | typeError : PyError
  | indexError : PyError
deriving DecidableEq

/-- Outcome of the `session.get` + `raise_for_status` + `response.json()`
sequence in `fetch_rates`:
  * `transportError`: `aiohttp.ClientError` raised by the request itself;
  * `httpError`: non-2xx status, `raise_for_status` raises
    `ClientResponseError` (a `ClientError`);
  * `contentTypeError`: `response.json()` raises `ContentTypeError`
    (a `ClientError`) because the body is not served as JSON;
  * `malformedJson`: the body fails to decode, `json.loads` raises
    `json.JSONDecodeError`, a subclass of `ValueError` (not a `ClientError`);
  * `ok data`: the decoded JSON document. -/
inductive RemoteResponse where
  | transportError : RemoteResponse
  | httpError : RemoteResponse
  | contentTypeError : RemoteResponse
  | malformedJson : RemoteResponse
  | ok : Json → RemoteResponse

/-- Message of the `ValueError` raised by `get_rates_for_days` validation. -/
def daysRangeMsg : String := "Number of days must be between 1 and 10"

/-- Representative message of a `json.JSONDecodeError`. -/
def jsonDecodeMsg : String := "Expecting value: line 1 column 1 (char 0)"

/-- Python `dict.get(k)`: first binding of `k`, as dicts have unique keys. -/
def pyGet (fields : List (String × Json)) (k : String) : Option Json :=
  (fields.find? (fun p => p.1 == k)).map (fun p => p.2)

/-- Python `d[k] = v` on a dict kept in insertion order: overwriting keeps the
key at its original position, a fresh key is appended. -/
def dictSet (d : List (String × Json)) (k : String) (v : Json) :
    List (String × Json) :=
  if d.any (fun p => p.1 == k) then
    d.map (fun p => if p.1 == k then (k, v) else p)
  else d ++ [(k, v)]

/-- Per-date rates dict: currency code → quote object. -/
abbrev Rates := List (String × Json)

/-- Result of one fetch: the dict `{date: rates}` (at most one key). -/
abbrev DayRates := List (Int × Rates)

/-- Result of `get_rates_for_days`: the filtered list of per-date dicts. -/
abbrev Report := List DayRates

/-- The quote dict built at lines 47-50 of the source: both keys are always
present; `rate.get(...)` yields `None` (here `Json.null`) when the source
element lacks the field. -/
def quoteJson (fields : List (String × Json)) : Json :=
  Json.obj [("sale", (pyGet fields "saleRate").getD Json.null),
            ("purchase", (pyGet fields "purchaseRate").getD Json.null)]

/-- The `if rate.get("currency") in currencies` test together with the dict
entry written when it succeeds: the test holds exactly when the `currency`
value is a string occurring in `currencies` (a non-string value is unequal to
every element of the requested list). -/
def matchedEntry (currencies : List String) (fields : List (String × Json)) :
    Option (String × Json) :=
  match pyGet fields "currency" with
  | some (Json.str c) =>
    if currencies.contains c then some (c, quoteJson fields) else none
  | _ => none

/-- The `for rate in data.get("exchangeRate", [])` loop of `_parse_response`.
A non-dict element makes `rate.get("currency")` raise `AttributeError`.
A dict element whose `currency` value is a string in `currencies` stores
`quoteJson` under that currency (Python dict assignment); any other
`currency` value fails the `in` test and is skipped. -/
def buildRates (currencies : List String) :
    List Json → List (String × Json) → Except PyError (List (String × Json))
  | [], rates => .ok rates
  | rate :: rest, rates =>
    match rate with
    | .obj fields =>
      match matchedEntry currencies fields with
      | some cq => buildRates currencies rest (dictSet rates cq.1 cq.2)
      | none => buildRates currencies rest rates
    | _ => .error .attributeError

/-- `PrivatBankCurrencyRatesFetcher._parse_response` (lines 43-51).
`data.get` on a non-dict raises `AttributeError`.  Iterating the value of
`"exchangeRate"`: a list iterates its elements; a string iterates its
characters and a dict its keys, so a non-empty one raises `AttributeError`
at the first `rate.get`; `None`/booleans/numbers are not iterable
(`TypeError`). -/
def _parse_response (data : Json) (date : Int) (currencies : List String) :
    Except PyError DayRates :=
  match data with
  | .obj dfields =>
    match (pyGet dfields "exchangeRate").getD (Json.arr []) with
    | .arr elems =>
      match buildRates currencies elems [] with
      | .error e => .error e
      | .ok rates => .ok (if rates.isEmpty then [] else [(date, rates)])
    | .str s => if s.toList.isEmpty then .ok [] else .error .attributeError
    | .obj ofields => if ofields.isEmpty then .ok [] else .error .attributeError
    | _ => .error .typeError
  | _ => .error .attributeError

/-- `PrivatBankCurrencyRatesFetcher.fetch_rates` (lines 31-41): the
`try`/`except aiohttp.ClientError` block.  `ClientError` (and subclasses)
is caught and converted to `{}`; exceptions of other classes raised inside
the `try` block — `json.JSONDecodeError` from `response.json()`, and
`AttributeError`/`TypeError` from `_parse_response` — propagate. -/
def fetch_rates (resp : RemoteResponse) (date : Int) (currencies : List String) :
    Except PyError DayRates :=
  match resp with
  | .transportError => .ok []
  | .httpError => .ok []
  | .contentTypeError => .ok []
  | .malformedJson => .error (.valueError jsonDecodeMsg)
  | .ok data => _parse_response data date currencies

/-- The date window of `get_rates_for_days` (lines 62-65):
`[(datetime.now() - timedelta(days=i)) for i in range(days)]`, with dates as
integer day numbers, so `[today, today - 1, ..., today - (days - 1)]`. -/
def windowDates (today : Int) (days : Int) : List Int :=
  List.map (fun i : Nat => today - (i : Int)) (List.range days.toNat)

/-- `asyncio.gather` over `fetch_rates` tasks, one per date, results in date
order (line 66-67).  If any task raises, `gather` propagates the exception. -/
def fetchAll (responses : Int → RemoteResponse) (currencies : List String) :
    List Int → Except PyError (List DayRates)
  | [] => .ok []
  | d :: ds =>
    match fetch_rates (responses d) d currencies with
    | .error e => .error e
    | .ok r =>
      match fetchAll responses currencies ds with
      | .error e => .error e
      | .ok rs => .ok (r :: rs)

/-- `CurrencyRatesService.get_rates_for_days` (lines 58-68): range validation
raising `ValueError`, the fan-out over the date window, and the final
`[result for result in results if result]` filter dropping empty dicts.
The fetcher is `PrivatBankCurrencyRatesFetcher` with per-date remote outcomes
given by `responses`. -/
def get_rates_for_days (responses : Int → RemoteResponse) (today : Int)
    (days : Int) (currencies : List String) : Except PyError Report :=
  if days < 1 ∨ days > 10 then .error (.valueError daysRangeMsg)
  else
    match fetchAll responses currencies (windowDates today days) with
    | .error e => .error e
    | .ok results => .ok (results.filter (fun r => !r.isEmpty))

/-- All date keys appearing in a report, in report order. -/
def reportDates : Report → List Int
  | [] => []
  | e :: es => e.map (fun p => p.1) ++ reportDates es

/-! Rendering of the reply `json.dumps(rates, indent=2, ensure_ascii=False)`
(line 109).  The renderer is modelled at the character-list level; the exact
whitespace/number formatting of `json.dumps` is not observable by any claim,
only that the reply is the serialization of the report (and in particular is
none of the fixed protocol error strings, which is visible from the leading
bracket character). -/

def renderSep : List Char := [',', ' ']

mutual

def renderJsonChars : Json → List Char
  | .null => "null".toList
  | .bool b => if b then "true".toList else "false".toList
  | .num q => (toString q).toList
  | .str s => Char.ofNat 34 :: (s.toList ++ [Char.ofNat 34])
  | .arr xs => Char.ofNat 91 :: (renderArrChars xs ++ [Char.ofNat 93])
  | .obj fs => Char.ofNat 123 :: (renderObjChars fs ++ [Char.ofNat 125])
termination_by j => sizeOf j

def renderArrChars : List Json → List Char
  | [] => []
  | [x] => renderJsonChars x
  | x :: y :: rest => renderJsonChars x ++ (renderSep ++ renderArrChars (y :: rest))
termination_by xs => sizeOf xs

def renderObjChars : List (String × Json) → List Char
  | [] => []
  | [(k, v)] =>
    Char.ofNat 34 :: (k.toList ++ (Char.ofNat 34 :: ':' :: ' ' :: renderJsonChars v))
  | (k, v) :: q :: rest =>
    (Char.ofNat 34 :: (k.toList ++ (Char.ofNat 34 :: ':' :: ' ' :: renderJsonChars v)))
      ++ (renderSep ++ renderObjChars (q :: rest))
termination_by fs => sizeOf fs

end

def renderDateKVChars (d : Int) (rs : Rates) : List Char :=
  Char.ofNat 34 :: ((toString d).toList ++
    (Char.ofNat 34 :: ':' :: ' ' :: renderJsonChars (Json.obj rs)))

def renderEntryFieldsChars : DayRates → List Char
  | [] => []
  | [p] => renderDateKVChars p.1 p.2
  | p :: q :: rest =>
    renderDateKVChars p.1 p.2 ++ (renderSep ++ renderEntryFieldsChars (q :: rest))

def renderEntryChars (e : DayRates) : List Char :=
  Char.ofNat 123 :: (renderEntryFieldsChars e ++ [Char.ofNat 125])

def renderReportBody : Report → List Char
  | [] => []
  | [e] => renderEntryChars e
  | e :: f :: rest => renderEntryChars e ++ (renderSep ++ renderReportBody (f :: rest))

/-- The reply text sent on the success branch: serialization of the report.
Definitionally starts with the character `[` (code 91). -/
def renderReport (r : Report) : String :=
  String.mk (Char.ofNat 91 :: (renderReportBody r ++ [Char.ofNat 93]))

/-! Python string primitives used by `exchange_command`:
`message.strip().split()` and `int(token)`.  Whitespace is modelled for the
ASCII whitespace characters (space, tab, LF, CR, VT, FF). -/

def pySpace (c : Char) : Bool :=
  c == ' ' || c == Char.ofNat 9 || c == Char.ofNat 10 ||
  c == Char.ofNat 13 || c == Char.ofNat 11 || c == Char.ofNat 12

/-- Python `str.strip()`. -/
def pyStrip (s : String) : String :=
  String.mk (((s.toList.dropWhile pySpace).reverse.dropWhile pySpace).reverse)

/-- Worker for `str.split()`: split on runs of whitespace, no empty tokens. -/
def splitWsAux : List Char → List Char → List String
  | [], acc => if acc.isEmpty then [] else [String.mk acc.reverse]
  | c :: cs, acc =>
    if pySpace c then
      if acc.isEmpty then splitWsAux cs []
      else String.mk acc.reverse :: splitWsAux cs []
    else splitWsAux cs (c :: acc)

/-- Python `str.split()` with no separator argument. -/
def pySplit (s : String) : List String :=
  splitWsAux s.toList []

def digitVal (c : Char) : Nat := c.toNat - 48

/-- Digits of a Python integer literal after the first digit: single
underscores are allowed between digits (`int("1_0") == 10`), nowhere else. -/
def pyIntDigits : List Char → Nat → Option Nat
  | [], acc => some acc
  | c :: cs, acc =>
    if c.isDigit then pyIntDigits cs (acc * 10 + digitVal c)
    else if c == '_' then
      match cs with
      | [] => none
      | d :: ds =>
        if d.isDigit then pyIntDigits ds (acc * 10 + digitVal d) else none
    else none

/-- Python `int(s)` after stripping: optional sign, then digits. -/
def pyIntCore : List Char → Option Int
  | [] => none
  | c :: cs =>
    if c == '-' then
      match cs with
      | [] => none
      | d :: ds =>
        if d.isDigit then (pyIntDigits ds (digitVal d)).map (fun n => -(n : Int))
        else none
    else if c == '+' then
      match cs with
      | [] => none
      | d :: ds =>
        if d.isDigit then (pyIntDigits ds (digitVal d)).map (fun n => (n : Int))
        else none
    else if c.isDigit then (pyIntDigits cs (digitVal c)).map (fun n => (n : Int))
    else none

/-- Python `int(s)` on a string (returns `none` where `int` raises
`ValueError`).  `int` ignores surrounding whitespace. -/
def pyInt (s : String) : Option Int :=
  pyIntCore (pyStrip s).toList

/-! The protocol reply strings of `exchange_command`, exactly as in the
source (the single quotes of the invalid-command reply are spliced in as
character 39). -/

def sQuote : String := String.mk [Char.ofNat 39]

def invalidCmdMsg : String :=
  "Invalid command. Use " ++ sQuote ++ "exchange <days>" ++ sQuote ++ " to get rates."

def promptMsg : String :=
  "Please provide the number of days (1-10) for the exchange rates."

def rangeErrMsg : String :=
  "Error: The number of days must be between 1 and 10."

def fmtErrMsg : String :=
  "Error: Please provide a valid number of days."

/-- The audit-log line written at lines 112-115:
`f"{datetime.now()} - exchange {days} days command executed"`. -/
def auditLine (now : String) (days : Int) : String :=
  now ++ " - exchange " ++ toString days ++ " days command executed"

/-- Replies sent and audit-log lines appended while handling one message. -/
structure HandlerOutput where
  replies : List String
  logs : List String
deriving DecidableEq

/-- One iteration of the `async for message in websocket` loop of
`exchange_command` (lines 93-125): the replies sent, the audit-log lines
appended, and the exception (if any) escaping the loop body.
`command[0]` on the empty token list raises `IndexError`.  Note that when
`command[0] == "exchange"` and `len(command) >= 3` no branch of the inner
`if`/`elif` applies and the loop body falls through without sending anything.
In the processing branch, the `except ValueError` handler covers `int()`,
the whole fetch, the send and the log write. -/
def exchange_command (responses : Int → RemoteResponse) (today : Int)
    (now : String) (message : String) : HandlerOutput × Option PyError :=
  match pySplit (pyStrip message) with
  | [] => (⟨[], []⟩, some .indexError)
  | t0 :: rest =>
    if t0 = "exchange" then
      match rest with
      | [] => (⟨[promptMsg], []⟩, none)
      | [t1] =>
        match pyInt t1 with
        | none => (⟨[fmtErrMsg], []⟩, none)
        | some days =>
          if 1 ≤ days ∧ days ≤ 10 then
            match get_rates_for_days responses today days ["EUR", "USD"] with
            | .ok rates => (⟨[renderReport rates], [auditLine now days]⟩, none)
            | .error (.valueError _) => (⟨[fmtErrMsg], []⟩, none)
            | .error e => (⟨[], []⟩, some e)
          else (⟨[rangeErrMsg], []⟩, none)
      | _ :: _ :: _ => (⟨[], []⟩, none)
    else (⟨[invalidCmdMsg], []⟩, none)

/-- The element list that `_parse_response` iterates over:
`data.get("exchangeRate", [])` when that value is a list. -/
def exchangeElems (data : Json) : List Json :=
  match data with
  | .obj dfields =>
    match (pyGet dfields "exchangeRate").getD (Json.arr []) with
    | .arr elems => elems
    | _ => []
  | _ => []

/-- Spec-side characterization of the audit log (for the refinement claim on
the audit log): exactly one line per successfully processed
`exchange <N>` command — two tokens, the second parsing as an integer in
`[1, 10]`, the fetch completing without an exception — and no line
otherwise. -/
def auditLinesSpec (responses : Int → RemoteResponse) (today : Int)
    (now : String) (message : String) : List String :=
  match pySplit (pyStrip message) with
  | [t0, t1] =>
    if t0 = "exchange" then
      match pyInt t1 with
      | some d =>
        if 1 ≤ d ∧ d ≤ 10 then
          match get_rates_for_days responses today d ["EUR", "USD"] with
          | .ok _ => [auditLine now d]
          | .error _ => []
        else []
      | none => []
    else []
  | _ => []

/-- The four fixed non-report reply strings of the protocol. -/
def errorReplyStrings : List String :=
  [invalidCmdMsg, promptMsg, rangeErrMsg, fmtErrMsg]

/-- Spec-side wording of the date property in the claim on
`get_rates_for_days`: the report dates are strictly descending by exactly one
calendar day per step starting from today,
i.e. `[today, today - 1, ..., today - (k - 1)]`. -/
abbrev datesExactWindow (today : Int) (r : Report) : Prop :=
  reportDates r =
    (List.range (reportDates r).length).map (fun i => today - (i : Int))

/-- Shape invariant tying one fetch result to its date: empty, or the
singleton dict `{date: rates}` with `rates` non-empty and all its keys drawn
from the requested currency list. -/
abbrev GoodCell (cs : List String) (d : Int) (r : DayRates) : Prop :=
  r = [] ∨ ∃ rates, r = [(d, rates)] ∧ rates ≠ [] ∧
    ∀ p ∈ rates, cs.contains p.1 = true

/-! Concrete fixtures used by counterexamples and witnesses. -/

def sampleQuoteFields : List (String × Json) :=
  [("currency", Json.str "USD"), ("saleRate", Json.num 41),
   ("purchaseRate", Json.num 40)]

def sampleData : Json :=
  Json.obj [("exchangeRate", Json.arr [Json.obj sampleQuoteFields])]

def sampleQuote : Json :=
  Json.obj [("sale", Json.num 41), ("purchase", Json.num 40)]

def sampleRates : Rates := [("USD", sampleQuote)]

/-- Every date answers with valid matching data. -/
def exResponses : Int → RemoteResponse := fun _ => .ok sampleData

/-- The fetch for yesterday fails at the transport level, the others match. -/
def cexResponses : Int → RemoteResponse :=
  fun d => if d = -1 then .transportError else .ok sampleData

def cexReport : Report := [[(0, sampleRates)], [(-2, sampleRates)]]

def exReport : Report := [[(0, sampleRates)], [(-1, sampleRates)]]

/-- A source element carrying only the currency, no rate fields. -/
def noRateFields : List (String × Json) := [("currency", Json.str "USD")]

def dataNoSale : Json :=
  Json.obj [("exchangeRate", Json.arr [Json.obj noRateFields])]

def quoteNull : Json :=
  Json.obj [("sale", Json.null), ("purchase", Json.null)]

example : fetch_rates .malformedJson 0 ["USD"] =
    .error (.valueError jsonDecodeMsg) := rfl

example : _parse_response
    (Json.obj [("exchangeRate", Json.arr [Json.obj [("currency", Json.str "USD")]])])
    0 ["USD"] =
    .ok [(0, [("USD", Json.obj [("sale", Json.null), ("purchase", Json.null)])])] := rfl

example : pySplit (pyStrip "  exchange   3 ") = ["exchange", "3"] := rfl

example : pyInt "3" = some 3 := rfl

example : pyInt "3a" = none := rfl

example : pyInt "-07" = some (-7) := rfl

example : exchange_command (fun _ => .transportError) 0 "t" "exchange 3 5" =
    (⟨[], []⟩, none) := rfl

example : exchange_command (fun _ => .transportError) 0 "t" "banana" =
    (⟨[invalidCmdMsg], []⟩, none) := rfl

example : exchange_command (fun _ => .transportError) 0 "t" "exchange 3" =
    (⟨[renderReport []], [auditLine "t" 3]⟩, none) := rfl

example : exchange_command (fun _ => .malformedJson) 0 "t" "exchange 3" =
    (⟨[fmtErrMsg], []⟩, none) := rfl

example : exchange_command (fun _ => .transportError) 0 "t" "exchange 11" =
    (⟨[rangeErrMsg], []⟩, none) := rfl

example : exchange_command (fun _ => .transportError) 0 "t" "   " =
    (⟨[], []⟩, some .indexError) := rfl

/-! ### Helper lemmas -/

theorem mem_dictSet {d : List (String × Json)} {k : String} {v : Json}
    {p : String × Json} (hp : p ∈ dictSet d k v) : p ∈ d ∨ p = (k, v) := by
  unfold dictSet at hp
  split at hp
  · rcases List.mem_map.1 hp with ⟨q, hq, hqe⟩
    by_cases hk : q.1 == k
    · rw [if_pos hk] at hqe
      exact Or.inr hqe.symm
    · rw [if_neg hk] at hqe
      exact Or.inl (hqe ▸ hq)
  · rcases List.mem_append.1 hp with h | h
    · exact Or.inl h
    · exact Or.inr (List.mem_singleton.1 h)

theorem matchedEntry_spec {cs : List String} {fields : List (String × Json)}
    {cq : String × Json} (h : matchedEntry cs fields = some cq) :
    pyGet fields "currency" = some (Json.str cq.1) ∧ cs.contains cq.1 = true ∧
      cq.2 = quoteJson fields := by
  unfold matchedEntry at h
  split at h
  · rename_i c heq
    split at h
    · rename_i hcon
      injection h with h2
      subst h2
      exact ⟨heq, hcon, rfl⟩
    · exact absurd h (by simp)
  · exact absurd h (by simp)

theorem buildRates_mem {Q : String × Json → Prop} {cs : List String} :
    ∀ {elems : List Json} {acc rates : List (String × Json)},
    buildRates cs elems acc = .ok rates →
    (∀ p ∈ acc, Q p) →
    (∀ fields cq, Json.obj fields ∈ elems →
      matchedEntry cs fields = some cq → Q cq) →
    ∀ p ∈ rates, Q p := by
  intro elems
  induction elems with
  | nil =>
    intro acc rates h hacc _
    injection h with h'
    exact h' ▸ hacc
  | cons e rest ih =>
    intro acc rates h hacc helems
    cases e with
    | obj fields =>
      simp only [buildRates] at h
      cases hm : matchedEntry cs fields with
      | none =>
        rw [hm] at h
        exact ih h hacc (fun f cq hmem => helems f cq (List.mem_cons_of_mem _ hmem))
      | some cq =>
        rw [hm] at h
        refine ih h ?_ (fun f cq' hmem => helems f cq' (List.mem_cons_of_mem _ hmem))
        intro p hp
        rcases mem_dictSet hp with hp' | hp'
        · exact hacc p hp'
        · rw [hp', Prod.mk.eta]
          exact helems fields cq (List.mem_cons_self _ _) hm
    | null => simp [buildRates] at h
    | bool b => simp [buildRates] at h
    | num q => simp [buildRates] at h
    | str s => simp [buildRates] at h
    | arr xs => simp [buildRates] at h

theorem buildRates_error {cs : List String} :
    ∀ {elems : List Json} {acc : List (String × Json)} {e : PyError},
    buildRates cs elems acc = .error e → e = .attributeError := by
  intro elems
  induction elems with
  | nil =>
    intro acc e h
    simp [buildRates] at h
  | cons el rest ih =>
    intro acc e h
    cases el with
    | obj fields =>
      simp only [buildRates] at h
      cases hm : matchedEntry cs fields with
      | none => rw [hm] at h; exact ih h
      | some cq => rw [hm] at h; exact ih h
    | null => simp only [buildRates] at h; injection h with h'; exact h'.symm
    | bool b => simp only [buildRates] at h; injection h with h'; exact h'.symm
    | num q => simp only [buildRates] at h; injection h with h'; exact h'.symm
    | str s => simp only [buildRates] at h; injection h with h'; exact h'.symm
    | arr xs => simp only [buildRates] at h; injection h with h'; exact h'.symm

theorem parse_response_shape {data : Json} {date : Int} {cs : List String}
    {r : DayRates} (h : _parse_response data date cs = .ok r) :
    GoodCell cs date r := by
  unfold _parse_response at h
  split at h
  · -- data = .obj dfields
    split at h
    · -- exchangeRate value is a list
      rename_i elems heq
      cases hb : buildRates cs elems [] with
      | error e => rw [hb] at h; exact absurd h (by simp)
      | ok rates =>
        rw [hb] at h
        injection h with h'
        subst h'
        by_cases hre : rates.isEmpty
        · rw [if_pos hre]
          exact Or.inl rfl
        · rw [if_neg hre]
          refine Or.inr ⟨rates, rfl, by simpa using hre, ?_⟩
          exact buildRates_mem hb (by simp)
            (fun fields cq _ hm => (matchedEntry_spec hm).2.1)
    · -- string value
      split at h
      · injection h with h'
        exact Or.inl h'.symm
      · exact absurd h (by simp)
    · -- dict value
      split at h
      · injection h with h'
        exact Or.inl h'.symm
      · exact absurd h (by simp)
    · exact absurd h (by simp)
  · exact absurd h (by simp)

theorem parse_response_error {data : Json} {date : Int} {cs : List String}
    {e : PyError} (h : _parse_response data date cs = .error e) :
    e = .attributeError ∨ e = .typeError := by
  unfold _parse_response at h
  split at h
  · split at h
    · rename_i elems heq
      cases hb : buildRates cs elems [] with
      | error e' =>
        rw [hb] at h
        injection h with h'
        exact Or.inl (h' ▸ buildRates_error hb)
      | ok rates => rw [hb] at h; exact absurd h (by simp)
    · split at h
      · exact absurd h (by simp)
      · injection h with h'
        exact Or.inl h'.symm
    · split at h
      · exact absurd h (by simp)
      · injection h with h'
        exact Or.inl h'.symm
    · injection h with h'
      exact Or.inr h'.symm
  · injection h with h'
    exact Or.inl h'.symm

theorem fetch_rates_shape {resp : RemoteResponse} {date : Int}
    {cs : List String} {r : DayRates}
    (h : fetch_rates resp date cs = .ok r) : GoodCell cs date r := by
  cases resp with
  | transportError => injection h with h'; exact Or.inl h'.symm
  | httpError => injection h with h'; exact Or.inl h'.symm
  | contentTypeError => injection h with h'; exact Or.inl h'.symm
  | malformedJson => simp [fetch_rates] at h
  | ok data => exact parse_response_shape h

theorem fetch_rates_error {resp : RemoteResponse} {date : Int}
    {cs : List String} {e : PyError}
    (h : fetch_rates resp date cs = .error e) :
    e = .valueError jsonDecodeMsg ∨ e = .attributeError ∨ e = .typeError := by
  cases resp with
  | transportError => simp [fetch_rates] at h
  | httpError => simp [fetch_rates] at h
  | contentTypeError => simp [fetch_rates] at h
  | malformedJson =>
    injection h with h'
    exact Or.inl h'.symm
  | ok data =>
    rcases parse_response_error h with h' | h'
    · exact Or.inr (Or.inl h')
    · exact Or.inr (Or.inr h')

theorem fetchAll_forall₂ {responses : Int → RemoteResponse} {cs : List String} :
    ∀ {dates : List Int} {rs : List DayRates},
    fetchAll responses cs dates = .ok rs →
    List.Forall₂ (GoodCell cs) dates rs := by
  intro dates
  induction dates with
  | nil =>
    intro rs h
    injection h with h'
    exact h' ▸ List.Forall₂.nil
  | cons d ds ih =>
    intro rs h
    simp only [fetchAll] at h
    cases hf : fetch_rates (responses d) d cs with
    | error e => rw [hf] at h; exact absurd h (by simp)
    | ok r =>
      rw [hf] at h
      cases ha : fetchAll responses cs ds with
      | error e => rw [ha] at h; exact absurd h (by simp)
      | ok rest =>
        rw [ha] at h
        injection h with h'
        exact h' ▸ List.Forall₂.cons (fetch_rates_shape hf) (ih ha)

theorem fetchAll_error {responses : Int → RemoteResponse} {cs : List String} :
    ∀ {dates : List Int} {e : PyError},
    fetchAll responses cs dates = .error e →
    e = .valueError jsonDecodeMsg ∨ e = .attributeError ∨ e = .typeError := by
  intro dates
  induction dates with
  | nil =>
    intro e h
    simp [fetchAll] at h
  | cons d ds ih =>
    intro e h
    simp only [fetchAll] at h
    cases hf : fetch_rates (responses d) d cs with
    | error e' =>
      rw [hf] at h
      injection h with h'
      exact h' ▸ fetch_rates_error hf
    | ok r =>
      rw [hf] at h
      cases ha : fetchAll responses cs ds with
      | error e' =>
        rw [ha] at h
        injection h with h'
        exact h' ▸ ih ha
      | ok rest => rw [ha] at h; exact absurd h (by simp)

theorem reportDates_filter_sublist {cs : List String} :
    ∀ {dates : List Int} {rs : List DayRates},
    List.Forall₂ (GoodCell cs) dates rs →
    (reportDates (rs.filter (fun r => !r.isEmpty))).Sublist dates := by
  intro dates rs h
  induction h with
  | nil => simp [reportDates]
  | cons hgood htail ih =>
    rename_i d r ds rest
    rcases hgood with rfl | ⟨rates, rfl, hne, hkeys⟩
    · simpa [List.filter_cons, reportDates] using ih.cons d
    · simp only [List.filter_cons,
        show (!(([(d, rates)] : DayRates)).isEmpty) = true from rfl, if_true]
      simpa [reportDates] using ih.cons₂ d

theorem forall₂_mem_right {α β : Type _} {R : α → β → Prop} :
    ∀ {xs : List α} {ys : List β},
    List.Forall₂ R xs ys → ∀ b ∈ ys, ∃ a ∈ xs, R a b := by
  intro xs ys h
  induction h with
  | nil =>
    intro b hb
    exact absurd hb (by simp)
  | cons hR htail ih =>
    rename_i a b' as bs
    intro b hb
    rcases List.mem_cons.1 hb with rfl | hb'
    · exact ⟨a, List.mem_cons_self _ _, hR⟩
    · rcases ih b hb' with ⟨a', ha', hR'⟩
      exact ⟨a', List.mem_cons_of_mem _ ha', hR'⟩

theorem windowDates_length (today days : Int) :
    (windowDates today days).length = days.toNat := by
  unfold windowDates
  rw [List.length_map, List.length_range]

theorem windowDates_pairwise (today days : Int) :
    List.Pairwise (fun a b : Int => a > b) (windowDates today days) := by
  unfold windowDates
  refine List.Pairwise.map _ ?_ (List.pairwise_lt_range days.toNat)
  intro a b hab
  omega

theorem windowDates_mem {today days d : Int} (h1 : 1 ≤ days)
    (hd : d ∈ windowDates today days) :
    today - (days - 1) ≤ d ∧ d ≤ today := by
  unfold windowDates at hd
  rcases List.mem_map.1 hd with ⟨i, hir, rfl⟩
  have hi := List.mem_range.1 hir
  omega

theorem renderReport_head (r : Report) :
    (renderReport r).data.head? = some (Char.ofNat 91) := rfl

theorem renderReport_not_error (r : Report) {s : String}
    (hs : s ∈ errorReplyStrings) : renderReport r ≠ s := by
  intro h
  have hh : (renderReport r).data.head? = s.data.head? := by rw [h]
  rw [renderReport_head] at hh
  simp [errorReplyStrings] at hs
  rcases hs with rfl | rfl | rfl | rfl <;> exact absurd hh (by decide)

/-! ### Claims -/

/-- C1 (corrected, counterexample): a response whose body fails JSON decoding
makes `fetch_rates` raise `json.JSONDecodeError` (a `ValueError`, not an
`aiohttp.ClientError`), which is not caught: the call does not return an
empty mapping, contradicting the claim that every malformed-JSON response is
converted to an empty result. -/
theorem spec_C1_counterexample :
    fetch_rates RemoteResponse.malformedJson 0 ["USD"] =
      .error (.valueError jsonDecodeMsg) := rfl

/-- C1 (amended): `fetch_rates` converts transport failures, non-2xx HTTP
statuses and wrong-content-type responses (all `aiohttp.ClientError`) into an
empty mapping, but a body that fails JSON decoding raises
`json.JSONDecodeError` (a `ValueError`), and a decoded document of unexpected
shape raises `AttributeError` (non-object document) or `TypeError`
(non-iterable `exchangeRate` value); those exceptions propagate to the
caller. -/
theorem spec_C1 (date : Int) (cs : List String) :
    fetch_rates RemoteResponse.transportError date cs = .ok [] ∧
    fetch_rates RemoteResponse.httpError date cs = .ok [] ∧
    fetch_rates RemoteResponse.contentTypeError date cs = .ok [] ∧
    fetch_rates RemoteResponse.malformedJson date cs =
      .error (.valueError jsonDecodeMsg) ∧
    (∀ q : Rat, fetch_rates (RemoteResponse.ok (Json.num q)) date cs =
      .error .attributeError) ∧
    fetch_rates (RemoteResponse.ok
        (Json.obj [("exchangeRate", Json.num 5)])) date cs =
      .error .typeError :=
  ⟨rfl, rfl, rfl, rfl, fun _ => rfl, rfl⟩

/-- C2 (corrected, counterexample): with valid data for today and two days
ago but a transport failure for yesterday, `get_rates_for_days` over a
3-day window returns a report whose dates are `[0, -2]` (day numbers): the
step from the first to the second date is two calendar days, so the dates are
not descending by exactly one calendar day per step as claimed. -/
theorem spec_C2_counterexample :
    get_rates_for_days cexResponses 0 3 ["USD"] = .ok cexReport ∧
    ¬ datesExactWindow 0 cexReport := ⟨rfl, by decide⟩

/-- C2 (amended): for `days` in `[1,10]`, a successful `get_rates_for_days`
returns at most `days` entries; the report dates are strictly descending and
all lie in the window `[today - (days - 1), today]` (consecutive report dates
can differ by more than one day where empty dates were dropped); and every
per-date currency key belongs to the requested currency list. -/
theorem spec_C2 (responses : Int → RemoteResponse) (today : Int) (days : Int)
    (cs : List String) (report : Report)
    (h1 : 1 ≤ days) (h2 : days ≤ 10)
    (h : get_rates_for_days responses today days cs = .ok report) :
    report.length ≤ days.toNat ∧
    List.Pairwise (fun a b : Int => a > b) (reportDates report) ∧
    (∀ d ∈ reportDates report, today - (days - 1) ≤ d ∧ d ≤ today) ∧
    (∀ e ∈ report, ∀ p ∈ e, ∀ q ∈ p.2, cs.contains q.1 = true) := by
  unfold get_rates_for_days at h
  rw [if_neg (by omega)] at h
  cases ha : fetchAll responses cs (windowDates today days) with
  | error e => rw [ha] at h; exact absurd h (by simp)
  | ok results =>
    rw [ha] at h
    injection h with h'
    subst h'
    have hf := fetchAll_forall₂ ha
    have hsub := reportDates_filter_sublist hf
    refine ⟨?_, ?_, ?_, ?_⟩
    · calc (results.filter (fun r => !r.isEmpty)).length
          ≤ results.length := List.length_filter_le _ _
        _ = (windowDates today days).length := (List.Forall₂.length_eq hf).symm
        _ = days.toNat := windowDates_length today days
    · exact (windowDates_pairwise today days).sublist hsub
    · intro d hd
      exact windowDates_mem h1 (hsub.subset hd)
    · intro e he p hp q hq
      rcases List.mem_filter.1 he with ⟨hmem, hpe⟩
      rcases forall₂_mem_right hf e hmem with ⟨d0, _, hgood⟩
      rcases hgood with rfl | ⟨rates, rfl, hne, hkeys⟩
      · exact absurd hpe (by simp)
      · rcases List.mem_singleton.1 hp with rfl
        exact hkeys q hq

/-- C2 witness: the amended theorem applied at a concrete run where both
days of a two-day window return matching data. -/
theorem spec_C2_witness :
    (1 : Int) ≤ 2 ∧
    get_rates_for_days exResponses 0 2 ["USD"] = .ok exReport ∧
    (exReport.length ≤ (2 : Int).toNat ∧
     List.Pairwise (fun a b : Int => a > b) (reportDates exReport) ∧
     (∀ d ∈ reportDates exReport, (0 : Int) - (2 - 1) ≤ d ∧ d ≤ 0) ∧
     (∀ e ∈ exReport, ∀ p ∈ e, ∀ q ∈ p.2, (["USD"]).contains q.1 = true)) :=
  ⟨by decide, rfl,
    spec_C2 exResponses 0 2 ["USD"] exReport (by decide) (by decide) rfl⟩

/-- C3 (confirmed): `get_rates_for_days` raises its validation `ValueError`
exactly when the requested day count lies outside `[1, 10]`, whatever the
currency list and the remote behaviour; in particular `days = 0` and
`days = 11` raise while `days = 1` and `days = 10` pass validation, and no
other input validation is performed. -/
theorem spec_C3 (responses : Int → RemoteResponse) (today days : Int)
    (cs : List String) :
    get_rates_for_days responses today days cs =
      .error (.valueError daysRangeMsg) ↔ days < 1 ∨ days > 10 := by
  constructor
  · intro h
    by_contra hc
    unfold get_rates_for_days at h
    rw [if_neg hc] at h
    cases ha : fetchAll responses cs (windowDates today days) with
    | ok results => rw [ha] at h; exact absurd h (by simp)
    | error e =>
      rw [ha] at h
      injection h with h'
      have := fetchAll_error ha
      rw [h'] at this
      exact absurd this (by decide)
  · intro h
    unfold get_rates_for_days
    rw [if_pos h]

/-- C7 (corrected, counterexample): for a source element with currency
`"USD"` and no `saleRate`/`purchaseRate` fields, the constructed quote dict
contains the key `"sale"` mapped to `None` (serialized `null`): the key is
present, contradicting the claim that a missing source field yields an
absent key. -/
theorem spec_C7_counterexample :
    _parse_response dataNoSale 0 ["USD"] = .ok [(0, [("USD", quoteNull)])] ∧
    pyGet [("sale", Json.null), ("purchase", Json.null)] "sale" =
      some Json.null := ⟨rfl, rfl⟩

/-- C7 (amended): every quote in a parsed result comes from an
`exchangeRate` element whose currency matched, and is the dict with both
keys `"sale"` and `"purchase"` always present, holding the source's
`saleRate`/`purchaseRate` values where present and `None` (`null`) — not
zero and not key-absence — where the source omits them. -/
theorem spec_C7 (data : Json) (date : Int) (cs : List String) (r : DayRates)
    (h : _parse_response data date cs = .ok r) :
    ∀ e ∈ r, ∀ cq ∈ e.2, ∃ fields,
      Json.obj fields ∈ exchangeElems data ∧
      pyGet fields "currency" = some (Json.str cq.1) ∧
      cs.contains cq.1 = true ∧
      cq.2 = Json.obj [("sale", (pyGet fields "saleRate").getD Json.null),
        ("purchase", (pyGet fields "purchaseRate").getD Json.null)] := by
  unfold _parse_response at h
  split at h
  · rename_i dfields
    split at h
    · rename_i elems heq
      have hx : exchangeElems (Json.obj dfields) = elems := by
        simp only [exchangeElems]
        rw [heq]
      rw [hx]
      cases hb : buildRates cs elems [] with
      | error e' => rw [hb] at h; exact absurd h (by simp)
      | ok rates =>
        rw [hb] at h
        injection h with h'
        subst h'
        by_cases hre : rates.isEmpty
        · rw [if_pos hre]
          intro e he
          exact absurd he (by simp)
        · rw [if_neg hre]
          intro e he cq hcq
          rcases List.mem_singleton.1 he with rfl
          refine buildRates_mem (Q := fun cq => ∃ fields,
            Json.obj fields ∈ elems ∧
            pyGet fields "currency" = some (Json.str cq.1) ∧
            cs.contains cq.1 = true ∧
            cq.2 = Json.obj
              [("sale", (pyGet fields "saleRate").getD Json.null),
               ("purchase", (pyGet fields "purchaseRate").getD Json.null)])
            hb (by simp) ?_ cq hcq
          intro fields cq' hmem hmat
          obtain ⟨hcur, hcon, hq⟩ := matchedEntry_spec hmat
          exact ⟨fields, hmem, hcur, hcon, hq⟩
    · split at h
      · injection h with h'
        subst h'
        intro e he
        exact absurd he (by simp)
      · exact absurd h (by simp)
    · split at h
      · injection h with h'
        subst h'
        intro e he
        exact absurd he (by simp)
      · exact absurd h (by simp)
    · exact absurd h (by simp)
  · exact absurd h (by simp)

/-- C7 witness: the amended theorem applied to the element that has a
currency but no rate fields: the produced quote maps both keys to `null`. -/
theorem spec_C7_witness :
    _parse_response dataNoSale 0 ["USD"] = .ok [(0, [("USD", quoteNull)])] ∧
    (∃ fields, Json.obj fields ∈ exchangeElems dataNoSale ∧
      pyGet fields "currency" = some (Json.str "USD") ∧
      (["USD"]).contains "USD" = true ∧
      quoteNull = Json.obj
        [("sale", (pyGet fields "saleRate").getD Json.null),
         ("purchase", (pyGet fields "purchaseRate").getD Json.null)]) :=
  ⟨rfl, spec_C7 dataNoSale 0 ["USD"] [(0, [("USD", quoteNull)])] rfl
    (0, [("USD", quoteNull)]) (List.Mem.head _)
    ("USD", quoteNull) (List.Mem.head _)⟩

/-- C8 (confirmed): every entry of a successful report is a singleton dict
mapping its date to a non-empty currency mapping whose keys all belong to
the requested list: a date whose fetch matched zero requested currencies is
filtered out of the report entirely. -/
theorem spec_C8 (responses : Int → RemoteResponse) (today days : Int)
    (cs : List String) (report : Report)
    (h : get_rates_for_days responses today days cs = .ok report) :
    ∀ e ∈ report, ∃ d rates, e = [(d, rates)] ∧ rates ≠ [] ∧
      ∀ p ∈ rates, cs.contains p.1 = true := by
  unfold get_rates_for_days at h
  split at h
  · exact absurd h (by simp)
  · cases ha : fetchAll responses cs (windowDates today days) with
    | error e => rw [ha] at h; exact absurd h (by simp)
    | ok results =>
      rw [ha] at h
      injection h with h'
      subst h'
      intro e he
      rcases List.mem_filter.1 he with ⟨hmem, hpe⟩
      rcases forall₂_mem_right (fetchAll_forall₂ ha) e hmem with ⟨d0, _, hgood⟩
      rcases hgood with rfl | ⟨rates, rfl, hne, hkeys⟩
      · exact absurd hpe (by simp)
      · exact ⟨d0, rates, rfl, hne, hkeys⟩

/-- C8 witness: the theorem applied at a one-day window whose fetch matched
the requested currency. -/
theorem spec_C8_witness :
    get_rates_for_days exResponses 0 1 ["USD"] = .ok [[(0, sampleRates)]] ∧
    (∃ (d : Int) (rates : Rates), [((0 : Int), sampleRates)] = [(d, rates)] ∧
      rates ≠ [] ∧ ∀ p ∈ rates, (["USD"]).contains p.1 = true) :=
  ⟨rfl, spec_C8 exResponses 0 1 ["USD"] [[(0, sampleRates)]] rfl
    [(0, sampleRates)] (List.Mem.head _)⟩

/-- C4 (corrected, counterexample): the message `"exchange 3 5"` — first
token `"exchange"` with two extra tokens — falls through every branch of the
handler: no reply at all is sent (in particular not the
format-error reply the claim expects), and the loop silently continues. -/
theorem spec_C4_counterexample :
    exchange_command (fun _ => RemoteResponse.transportError) 0 "ts"
      "exchange 3 5" = (⟨[], []⟩, none) ∧
    exchange_command (fun _ => RemoteResponse.transportError) 0 "ts"
      "exchange 3 5" ≠ (⟨[fmtErrMsg], []⟩, none) := ⟨rfl, by decide⟩

/-- C4 (amended): a message whose first token is `"exchange"` followed by
two or more extra tokens receives no reply at all (and raises nothing, so
the loop returns to awaiting the next message); every other message with a
non-empty token list receives exactly one reply whenever the loop body
completes without an uncaught exception. -/
theorem spec_C4 (responses : Int → RemoteResponse) (today : Int) (now : String)
    (msg t0 : String) (rest : List String)
    (htok : pySplit (pyStrip msg) = t0 :: rest) :
    (t0 = "exchange" ∧ 2 ≤ rest.length →
      exchange_command responses today now msg = (⟨[], []⟩, none)) ∧
    ((exchange_command responses today now msg).2 = none →
      (exchange_command responses today now msg).1.replies.length =
        if t0 = "exchange" ∧ 2 ≤ rest.length then 0 else 1) := by
  by_cases ht : t0 = "exchange"
  · subst ht
    rcases rest with _ | ⟨r1, _ | ⟨r2, rest2⟩⟩
    · refine ⟨?_, ?_⟩
      · rintro ⟨-, hlen⟩
        simp at hlen
      · intro _
        rw [if_neg (by simp)]
        simp [exchange_command, htok]
    · refine ⟨?_, ?_⟩
      · rintro ⟨-, hlen⟩
        simp at hlen
      · intro hnone
        rw [if_neg (by simp)]
        cases hint : pyInt r1 with
        | none => simp [exchange_command, htok, hint]
        | some d =>
          by_cases hd : 1 ≤ d ∧ d ≤ 10
          · cases hget : get_rates_for_days responses today d ["EUR", "USD"] with
            | ok rates => simp [exchange_command, htok, hint, hd, hget]
            | error e =>
              cases e with
              | valueError m => simp [exchange_command, htok, hint, hd, hget]
              | clientError =>
                simp [exchange_command, htok, hint, hd, hget] at hnone
              | attributeError =>
                simp [exchange_command, htok, hint, hd, hget] at hnone
              | typeError =>
                simp [exchange_command, htok, hint, hd, hget] at hnone
              | indexError =>
                simp [exchange_command, htok, hint, hd, hget] at hnone
          · simp [exchange_command, htok, hint, hd]
    · refine ⟨?_, ?_⟩
      · intro _
        simp [exchange_command, htok]
      · intro _
        rw [if_pos ⟨rfl, by simp only [List.length_cons]; omega⟩]
        simp [exchange_command, htok]
  · refine ⟨?_, ?_⟩
    · rintro ⟨h1, -⟩
      exact absurd h1 ht
    · intro _
      rw [if_neg (fun hc => ht hc.1)]
      simp [exchange_command, htok, ht]

/-- C4 witness: the no-reply conjunct of the amended theorem at the
four-token message `"exchange 1 2 3"`. -/
theorem spec_C4_witness :
    exchange_command (fun _ => RemoteResponse.transportError) 0 "ts"
      "exchange 1 2 3" = (⟨[], []⟩, none) :=
  (spec_C4 (fun _ => RemoteResponse.transportError) 0 "ts" "exchange 1 2 3"
    "exchange" ["1", "2", "3"] rfl).1 ⟨rfl, by decide⟩

/-- C5 (confirmed): the handler replies with the exact specified strings —
the invalid-command string when the first token differs from `"exchange"`,
the prompt when `"exchange"` arrives alone, and the range-error string when
the day token parses to an integer outside `[1, 10]` — and in each case the
loop body finishes without raising, returning to await the next command. -/
theorem spec_C5 (responses : Int → RemoteResponse) (today : Int) (now : String)
    (msg t0 : String) (rest : List String)
    (htok : pySplit (pyStrip msg) = t0 :: rest) :
    (t0 ≠ "exchange" →
      exchange_command responses today now msg = (⟨[invalidCmdMsg], []⟩, none)) ∧
    (t0 = "exchange" → rest = [] →
      exchange_command responses today now msg = (⟨[promptMsg], []⟩, none)) ∧
    (∀ t1 n, t0 = "exchange" → rest = [t1] → pyInt t1 = some n →
      n < 1 ∨ 10 < n →
      exchange_command responses today now msg = (⟨[rangeErrMsg], []⟩, none)) := by
  refine ⟨?_, ?_, ?_⟩
  · intro ht
    simp [exchange_command, htok, ht]
  · rintro rfl rfl
    simp [exchange_command, htok]
  · rintro t1 n rfl rfl hint hn
    have hnd : ¬(1 ≤ n ∧ n ≤ 10) := by omega
    simp [exchange_command, htok, hint, hnd]

/-- C5 witness: the invalid-command conjunct applied to the message
`"banana"`. -/
theorem spec_C5_witness :
    exchange_command (fun _ => RemoteResponse.transportError) 0 "ts" "banana" =
      (⟨[invalidCmdMsg], []⟩, none) :=
  (spec_C5 (fun _ => RemoteResponse.transportError) 0 "ts" "banana"
    "banana" [] rfl).1 (by decide)

/-- C6 (confirmed): the audit-log lines appended by the handler are exactly
those of the spec-side characterization — one line
`"<timestamp> - exchange <N> days command executed"` per successfully
processed `exchange <N>` command, none otherwise — and whenever the reply is
one of the invalid-command, prompt, range-error or format-error strings, no
audit-log line is appended. -/
theorem spec_C6 (responses : Int → RemoteResponse) (today : Int) (now : String)
    (msg : String) :
    (exchange_command responses today now msg).1.logs =
      auditLinesSpec responses today now msg ∧
    (∀ s ∈ errorReplyStrings,
      (exchange_command responses today now msg).1.replies = [s] →
      (exchange_command responses today now msg).1.logs = []) := by
  rcases htok : pySplit (pyStrip msg) with _ | ⟨t0, _ | ⟨r1, _ | ⟨r2, rest2⟩⟩⟩
  · constructor
    · simp [exchange_command, auditLinesSpec, htok]
    · intro s hs hrep
      simp [exchange_command, htok] at hrep
  · constructor
    · by_cases ht : t0 = "exchange" <;>
        simp [exchange_command, auditLinesSpec, htok, ht]
    · intro s hs hrep
      by_cases ht : t0 = "exchange" <;> simp [exchange_command, htok, ht]
  · constructor
    · by_cases ht : t0 = "exchange"
      · subst ht
        cases hint : pyInt r1 with
        | none => simp [exchange_command, auditLinesSpec, htok, hint]
        | some d =>
          by_cases hd : 1 ≤ d ∧ d ≤ 10
          · cases hget : get_rates_for_days responses today d ["EUR", "USD"] with
            | ok rates =>
              simp [exchange_command, auditLinesSpec, htok, hint, hd, hget]
            | error e =>
              cases e <;>
                simp [exchange_command, auditLinesSpec, htok, hint, hd, hget]
          · simp [exchange_command, auditLinesSpec, htok, hint, hd]
      · simp [exchange_command, auditLinesSpec, htok, ht]
    · intro s hs hrep
      by_cases ht : t0 = "exchange"
      · subst ht
        cases hint : pyInt r1 with
        | none => simp [exchange_command, htok, hint]
        | some d =>
          by_cases hd : 1 ≤ d ∧ d ≤ 10
          · cases hget : get_rates_for_days responses today d ["EUR", "USD"] with
            | ok rates =>
              have hcmd : exchange_command responses today now msg =
                  (⟨[renderReport rates], [auditLine now d]⟩, none) := by
                simp [exchange_command, htok, hint, hd, hget]
              rw [hcmd] at hrep
              simp at hrep
              exact absurd hrep (renderReport_not_error rates hs)
            | error e =>
              cases e <;> simp [exchange_command, htok, hint, hd, hget]
          · simp [exchange_command, htok, hint, hd]
      · simp [exchange_command, htok, ht]
  · constructor
    · by_cases ht : t0 = "exchange" <;>
        simp [exchange_command, auditLinesSpec, htok, ht]
    · intro s hs hrep
      by_cases ht : t0 = "exchange" <;> simp [exchange_command, htok, ht]

/-- C6 witness: the no-audit-line conjunct applied to the invalid command
`"hello"`, whose reply is the invalid-command string. -/
theorem spec_C6_witness :
    (exchange_command (fun _ => RemoteResponse.transportError) 0 "ts"
      "hello").1.logs = [] :=
  (spec_C6 (fun _ => RemoteResponse.transportError) 0 "ts" "hello").2
    invalidCmdMsg (List.Mem.head _) rfl

/-- C9 (confirmed): a message that is empty or all whitespace tokenizes to
the empty list, `command[0]` raises `IndexError`, no reply is sent, no
audit-log line is appended, and the loop body terminates abnormally instead
of returning to await the next command. -/
theorem spec_C9 (responses : Int → RemoteResponse) (today : Int) (now : String)
    (msg : String) (hws : msg.toList.all pySpace = true) :
    pySplit (pyStrip msg) = [] ∧
    exchange_command responses today now msg = (⟨[], []⟩, some .indexError) := by
  have hall : ∀ c ∈ msg.toList, pySpace c = true := List.all_eq_true.1 hws
  have h1 : msg.toList.dropWhile pySpace = [] :=
    List.dropWhile_eq_nil_iff.2 hall
  have h2 : pyStrip msg = String.mk [] := by
    unfold pyStrip
    rw [h1]
    rfl
  have h3 : pySplit (pyStrip msg) = [] := by
    rw [h2]
    rfl
  refine ⟨h3, ?_⟩
  unfold exchange_command
  rw [h3]

/-- C9 witness: the theorem applied to the three-space message. -/
theorem spec_C9_witness :
    pySplit (pyStrip "   ") = [] ∧
    exchange_command (fun _ => RemoteResponse.transportError) 0 "ts" "   " =
      (⟨[], []⟩, some .indexError) :=
  spec_C9 (fun _ => RemoteResponse.transportError) 0 "ts" "   " (by decide)

/-- C10 (confirmed): the `except ValueError` handler of the processing
branch also catches `ValueError`s raised by the fetch itself (such as a
`json.JSONDecodeError` from a malformed remote body): even after the day
count parsed and passed the range check, such an error produces the
format-error reply and no audit-log line. -/
theorem spec_C10 (responses : Int → RemoteResponse) (today : Int)
    (now : String) (msg t1 : String) (d : Int) (m : String)
    (htok : pySplit (pyStrip msg) = ["exchange", t1])
    (hint : pyInt t1 = some d) (h1 : 1 ≤ d) (h2 : d ≤ 10)
    (herr : get_rates_for_days responses today d ["EUR", "USD"] =
      .error (.valueError m)) :
    exchange_command responses today now msg = (⟨[fmtErrMsg], []⟩, none) := by
  have hd : 1 ≤ d ∧ d ≤ 10 := ⟨h1, h2⟩
  simp [exchange_command, htok, hint, hd, herr]

/-- C10 witness: with every remote body malformed, `"exchange 3"` yields the
format-error reply and appends no audit-log line. -/
theorem spec_C10_witness :
    pyInt "3" = some 3 ∧
    get_rates_for_days (fun _ => RemoteResponse.malformedJson) 0 3
      ["EUR", "USD"] = .error (.valueError jsonDecodeMsg) ∧
    exchange_command (fun _ => RemoteResponse.malformedJson) 0 "ts"
      "exchange 3" = (⟨[fmtErrMsg], []⟩, none) :=
  ⟨rfl, rfl,
    spec_C10 (fun _ => RemoteResponse.malformedJson) 0 "ts" "exchange 3" "3"
      3 jsonDecodeMsg rfl rfl (by decide) (by decide) rfl⟩
